import Mathlib

/-!
Shallow embedding of `NeoPay_Customer_Analytics_Pandas_Only/scripts/neopay_report.py`.

The script is a linear batch job over an in-memory table of transactions.
We model the table as a `List Txn`; each pandas operation used by the
script is embedded as a Lean function on that list:

* `drop_duplicates(subset=[all six columns])`  → `dropDuplicates` (keep first);
* `str.strip` on the three string columns      → `stripRow` (via `stripStr`);
* the derived columns (`hour`, `month`, `is_night`, `is_high`, `region`) →
  pure functions of a row;
* `groupby` (which sorts its keys ascending)   → sorted distinct keys +
  per-key aggregation;
* `resample("ME")` → one aggregation row per calendar month from the
  minimum month of the index to the maximum month, gaps included;
* `pd.qcut(_, 4, labels=[1,2,3,4])` → quartile edges by the linear
  interpolation rule pandas uses, each value labelled `1 +` the number of
  internal edges strictly below it;
* `rank(method="first")` → rank with ties broken by position;
* `sort_values(_, ascending=False)` → pandas argsorts ascending and
  reverses the index array (`nargsort` in `pandas/core/sorting.py`), which
  we embed as a stable ascending sort followed by `List.reverse`.

Amounts are modelled as `ℚ` (the script treats them as numbers; no claim
here depends on binary floating-point rounding).  Timestamps are modelled
to minute precision, which is enough for every derived column the claims
mention.
-/

namespace NeoPay

/-- Timestamp of a transaction, to minute precision (the script's derived
columns use only the date, the hour and the calendar month). -/
structure Timestamp where
  year : Nat
  month : Nat
  day : Nat
  hour : Nat
  minute : Nat
deriving DecidableEq, Repr

/-- One row of the transactions table: the six CSV columns. -/
structure Txn where
  account_id : Int
  amount : ℚ
  txn_type : String
  description : String
  city : String
  txn_time : Timestamp
deriving DecidableEq, Repr

/-! ### Cleaning: `drop_duplicates` and `str.strip` -/

/-- Keep-first deduplication with an accumulator of already-seen values:
an element is kept iff it has not occurred before. -/
def dedupSeen {α : Type} [DecidableEq α] (seen : List α) : List α → List α
  | [] => []
  | x :: xs => if x ∈ seen then dedupSeen seen xs else x :: dedupSeen (x :: seen) xs

/-- Generic keep-first deduplication, the semantics of pandas
`drop_duplicates(keep="first")`: keep each element's first occurrence,
drop every later equal element. -/
def dedupFirst {α : Type} [DecidableEq α] (l : List α) : List α := dedupSeen [] l

/-- Embedding of line 38,
`df.drop_duplicates(subset=["account_id","txn_time","amount","txn_type","description","city"])`:
the subset is the full column tuple, so this is whole-row keep-first
deduplication. -/
def dropDuplicates (df : List Txn) : List Txn := dedupFirst df

/-- Model of Python `str.strip()`: drop leading and trailing whitespace
characters from a string. -/
def stripStr (s : String) : String :=
  ⟨((s.data.dropWhile Char.isWhitespace).reverse.dropWhile Char.isWhitespace).reverse⟩

/-- Embedding of the `str.strip` cleaning loop (lines 43–45): trim the
three string columns of a row. -/
def stripRow (t : Txn) : Txn :=
  { t with txn_type := stripStr t.txn_type, description := stripStr t.description,
           city := stripStr t.city }

/-- Cleaned table: deduplicate first (line 38), then trim strings
(lines 43–45), in the script's order. -/
def cleaned (df : List Txn) : List Txn := (dropDuplicates df).map stripRow

/-! ### Derived columns (lines 53–65) -/

/-- Embedding of line 57, `df["is_night"] = (df["hour"] < 6) | (df["hour"] > 22)`;
`df["hour"]` is the integer hour component of the timestamp. -/
def is_night (t : Txn) : Bool := t.txn_time.hour < 6 || 22 < t.txn_time.hour

/-- Embedding of line 58, `df["is_high"] = df["amount"] > 200_000`. -/
def is_high (t : Txn) : Bool := decide ((200000 : ℚ) < t.amount)

/-- The fixed `city_to_region` table (lines 61–64). -/
def city_to_region : List (String × String) :=
  [("Mumbai", "West"), ("Pune", "West"), ("Delhi", "North"),
   ("Bengaluru", "South"), ("Hyderabad", "South"), ("Chennai", "South"),
   ("Kolkata", "East")]

/-- Embedding of line 65, `df["city"].map(city_to_region).fillna("Unknown")`:
look the city up in the fixed table, defaulting to `"Unknown"`. -/
def region (c : String) : String :=
  ((city_to_region.find? (fun p => p.1 == c)).map Prod.snd).getD "Unknown"

/-- Minutes after midnight of a row's time of day (used only to state the
spec's phrase "before 06:00 or after 22:00" exactly). -/
def timeMinutes (t : Txn) : Nat := t.txn_time.hour * 60 + t.txn_time.minute

/-- The night-flag property exactly as the claim words it: the row's time
of day is strictly before 06:00 or strictly after 22:00. -/
def nightClaimSpec (t : Txn) : Prop :=
  timeMinutes t < 6 * 60 ∨ 22 * 60 < timeMinutes t

/-- A transaction at 22:30 (the claim's example time). -/
def txnAt2230 : Txn :=
  { account_id := 1, amount := 100, txn_type := "upi", description := "d",
    city := "Mumbai", txn_time := ⟨2024, 1, 5, 22, 30⟩ }

/-! ### Helper lemmas about `dedupFirst` -/

theorem mem_of_mem_dedupSeen {α : Type} [DecidableEq α] {x : α} :
    ∀ (seen l : List α), x ∈ dedupSeen seen l → x ∈ l
  | _, [], h => by simp [dedupSeen] at h
  | seen, y :: ys, h => by
    rw [dedupSeen] at h
    split at h
    · exact List.mem_cons_of_mem _ (mem_of_mem_dedupSeen seen ys h)
    · rcases List.mem_cons.mp h with h1 | h2
      · exact h1 ▸ List.mem_cons_self _ _
      · exact List.mem_cons_of_mem _ (mem_of_mem_dedupSeen (y :: seen) ys h2)

theorem mem_of_mem_dedupFirst {α : Type} [DecidableEq α] {x : α} {l : List α}
    (h : x ∈ dedupFirst l) : x ∈ l :=
  mem_of_mem_dedupSeen [] l h

/-- The output of `dedupSeen` has no duplicates and avoids the accumulator. -/
theorem dedupSeen_nodup_avoid {α : Type} [DecidableEq α] :
    ∀ (seen l : List α), (dedupSeen seen l).Nodup
      ∧ ∀ x ∈ dedupSeen seen l, x ∉ seen
  | _, [] => by simp [dedupSeen]
  | seen, y :: ys => by
    rw [dedupSeen]
    split
    · exact dedupSeen_nodup_avoid seen ys
    · rename_i hys
      rcases dedupSeen_nodup_avoid (y :: seen) ys with ⟨hnd, hav⟩
      refine ⟨List.nodup_cons.mpr ⟨?_, hnd⟩, ?_⟩
      · intro hy
        exact hav y hy (List.mem_cons_self _ _)
      · intro x hx
        rcases List.mem_cons.mp hx with rfl | hx2
        · exact hys
        · intro hxs
          exact hav x hx2 (List.mem_cons_of_mem _ hxs)

/-- A list with no duplicates avoiding the accumulator passes through
`dedupSeen` unchanged. -/
theorem dedupSeen_eq_self {α : Type} [DecidableEq α] :
    ∀ (seen l : List α), l.Nodup → (∀ x ∈ l, x ∉ seen) → dedupSeen seen l = l
  | _, [], _, _ => rfl
  | seen, y :: ys, hnd, hav => by
    rw [dedupSeen]
    rw [if_neg (hav y (List.mem_cons_self _ _))]
    rcases List.nodup_cons.mp hnd with ⟨hy, hnd2⟩
    rw [dedupSeen_eq_self (y :: seen) ys hnd2]
    intro x hx
    intro hmem
    rcases List.mem_cons.mp hmem with rfl | h2
    · exact hy hx
    · exact hav x (List.mem_cons_of_mem _ hx) h2

theorem dedupFirst_idem {α : Type} [DecidableEq α] (l : List α) :
    dedupFirst (dedupFirst l) = dedupFirst l :=
  dedupSeen_eq_self [] (dedupFirst l) (dedupSeen_nodup_avoid [] l).1
    (fun x _ => List.not_mem_nil x)

/-- A transaction at 23:00, used to exhibit the corrected night flag. -/
def txnAt2300 : Txn :=
  { account_id := 1, amount := 100, txn_type := "upi", description := "d",
    city := "Mumbai", txn_time := ⟨2024, 1, 5, 23, 0⟩ }

/-! ### Claim C4 (corrected): the night flag -/

/-- C4 counterexample: the claim says a row is flagged night iff its time
of day is before 06:00 or after 22:00, and that a 22:30 transaction is
flagged.  The code computes `is_night` from the integer hour alone
(`hour < 6 or hour > 22`), so at 22:30 the time of day is after 22:00 but
the flag is false. -/
theorem is_night_claim_cex :
    nightClaimSpec txnAt2230 ∧ is_night txnAt2230 = false :=
  ⟨Or.inr (by decide), by decide⟩

/-- C4 (amended): for every row whose minute field is in range, `is_night`
is true iff the row's hour is below 6 or above 22; in time-of-day terms,
iff the time is strictly before 06:00 or at/after 23:00.  A 22:30
transaction is not flagged. -/
theorem is_night_iff_before6_or_from23 (t : Txn) (hm : t.txn_time.minute < 60) :
    is_night t = true ↔ (timeMinutes t < 6 * 60 ∨ 23 * 60 ≤ timeMinutes t) := by
  simp only [is_night, timeMinutes, Bool.or_eq_true, decide_eq_true_eq]
  omega

/-- Witness for C4's amended theorem at the concrete 23:00 transaction. -/
theorem is_night_iff_before6_or_from23_witness :
    is_night txnAt2300 = true ∧ txnAt2300.txn_time.minute < 60 :=
  ⟨(is_night_iff_before6_or_from23 txnAt2300 (by decide)).mpr (Or.inr (by decide)),
   by decide⟩

/-! ### Claim C6 (region lookup) -/

/-- C6: every city outside the seven-key mapping table yields region
`"Unknown"`; `"Mumbai"` maps to `"West"` and `"Nowhereville"` to
`"Unknown"`. -/
theorem region_unmapped_unknown :
    (∀ c : String, c ∉ city_to_region.map Prod.fst → region c = "Unknown")
    ∧ region "Mumbai" = "West" ∧ region "Nowhereville" = "Unknown" := by
  refine ⟨?_, by decide, by decide⟩
  intro c hc
  unfold region
  rw [List.find?_eq_none.mpr]
  · rfl
  · intro p hp
    simp only [beq_iff_eq]
    intro hpc
    exact hc (hpc ▸ List.mem_map.mpr ⟨p, hp, rfl⟩)

/-- Witness for C6 at the concrete unmapped city `"Goa"`. -/
theorem region_unmapped_unknown_witness : region "Goa" = "Unknown" :=
  region_unmapped_unknown.1 "Goa" (by decide)

/-! ### Claim C7 (deduplication is idempotent) -/

/-- C7: applying `drop_duplicates` (full-tuple keep-first deduplication) a
second time to an already-deduplicated table leaves the table — and hence
its row count — unchanged. -/
theorem dropDuplicates_idempotent (df : List Txn) :
    dropDuplicates (dropDuplicates df) = dropDuplicates df :=
  dedupFirst_idem df

/-! ### Claim C9 (deduplication happens on raw, untrimmed values) -/

/-- C9: deduplication runs before trimming, on the raw field values.  Two
rows that agree on `account_id`, `txn_time` and `amount` but differ as raw
records (e.g. only by surrounding whitespace in a string column) both
survive deduplication; if trimming makes them equal, the cleaned table
contains two exactly equal rows. -/
theorem dedup_before_strip (r1 r2 : Txn)
    (_hacc : r1.account_id = r2.account_id) (_htime : r1.txn_time = r2.txn_time)
    (_hamt : r1.amount = r2.amount) (hraw : r1 ≠ r2)
    (hstrip : stripRow r1 = stripRow r2) :
    dropDuplicates [r1, r2] = [r1, r2]
    ∧ cleaned [r1, r2] = [stripRow r1, stripRow r1] := by
  have h2 : r2 ≠ r1 := Ne.symm hraw
  have hdedup : dropDuplicates [r1, r2] = [r1, r2] := by
    simp [dropDuplicates, dedupFirst, dedupSeen, h2]
  refine ⟨hdedup, ?_⟩
  unfold cleaned
  rw [hdedup]
  simp [← hstrip]

/-- Witness for C9: two concrete rows identical except for a trailing
space in the city survive deduplication, and trimming then makes them
exact duplicates in the cleaned table. -/
theorem dedup_before_strip_witness :
    dropDuplicates [txnAt2230, { txnAt2230 with city := "Mumbai " }]
        = [txnAt2230, { txnAt2230 with city := "Mumbai " }]
    ∧ cleaned [txnAt2230, { txnAt2230 with city := "Mumbai " }]
        = [stripRow txnAt2230, stripRow txnAt2230] :=
  dedup_before_strip txnAt2230 { txnAt2230 with city := "Mumbai " }
    rfl rfl rfl (by decide) (by decide)

/-! ### Claim C8 (the input-existence check) -/

/-- Filesystem effects the script can perform. -/
inductive Effect where
  | mkdirOutputs : Effect
  | writeFile : String → Effect
deriving DecidableEq, Repr

/-- The fixed input path (relative to the script's base directory). -/
def CSV_PATH : String := "data/transactions.csv"

/-- Embedding of the script's top-level control flow: the single explicit
check (`if not CSV_PATH.exists(): raise FileNotFoundError(f"CSV file not
found: {CSV_PATH}")`, lines 11–13) runs before the outputs directory is
created (line 15) and before any output is written (export section).  The
script has no other branch.  The result is the list of filesystem effects
performed, in program order, paired with the raised error message if any. -/
def runReport (csvExists : Bool) : List Effect × Option String :=
  if csvExists then
    ([Effect.mkdirOutputs,
      Effect.writeFile "outputs/neopay_pandas_report.xlsx",
      Effect.writeFile "outputs/monthly_metrics.csv",
      Effect.writeFile "outputs/city_performance.csv",
      Effect.writeFile "outputs/rfm_scores.csv",
      Effect.writeFile "outputs/cohort_retention.csv"], none)
  else ([], some ("CSV file not found: " ++ CSV_PATH))

/-- C8: the run raises an error iff the input CSV is absent (the only
explicit check); the message names the missing path; and when it fires no
directory is created and nothing is written (the effect list is empty). -/
theorem csv_check_only_failure :
    (∀ b : Bool, ((runReport b).2).isSome = true ↔ b = false)
    ∧ runReport false = ([], some ("CSV file not found: " ++ CSV_PATH))
    ∧ Effect.mkdirOutputs ∉ (runReport false).1 := by
  refine ⟨?_, by decide, by decide⟩
  intro b
  cases b <;> simp [runReport]

/-! ### A stable ascending sort (embedding of pandas argsort)

Pandas `sort_values(_, ascending=False)` argsorts the key column ascending
and then reverses the resulting index array (`nargsort` in
`pandas/core/sorting.py`).  We embed the ascending argsort as a stable
insertion sort: an element is inserted before the first element it
compares `le` to, so elements that compare equal keep their input order. -/

/-- Insert `x` into `l` before the first element `y` with `le x y`. -/
def insertLe {α : Type} (le : α → α → Bool) (x : α) : List α → List α
  | [] => [x]
  | y :: ys => if le x y then x :: y :: ys else y :: insertLe le x ys

/-- Stable insertion sort by the boolean comparison `le`. -/
def isort {α : Type} (le : α → α → Bool) : List α → List α
  | [] => []
  | x :: xs => insertLe le x (isort le xs)

theorem mem_insertLe {α : Type} (le : α → α → Bool) (x a : α) :
    ∀ l : List α, a ∈ insertLe le x l ↔ a = x ∨ a ∈ l
  | [] => by simp [insertLe]
  | y :: ys => by
    rw [insertLe]
    split
    · simp [List.mem_cons]
    · simp only [List.mem_cons, mem_insertLe le x a ys]
      tauto

theorem mem_isort {α : Type} (le : α → α → Bool) (a : α) :
    ∀ l : List α, a ∈ isort le l ↔ a ∈ l
  | [] => Iff.rfl
  | x :: xs => by
    rw [isort]
    simp only [mem_insertLe, List.mem_cons, mem_isort le a xs]

theorem sublist_insertLe {α : Type} (le : α → α → Bool) (x : α) :
    ∀ l : List α, List.Sublist l (insertLe le x l)
  | [] => List.nil_sublist _
  | y :: ys => by
    rw [insertLe]
    split
    · exact List.sublist_cons_self x (y :: ys)
    · exact List.Sublist.cons₂ y (sublist_insertLe le x ys)

theorem cons_sublist_insertLe {α : Type} (le : α → α → Bool) (x : α) :
    ∀ (s c : List α), List.Sublist c s → (∀ b ∈ c, le x b = true) →
      List.Sublist (x :: c) (insertLe le x s)
  | [], c, h, _ => by
    rw [List.sublist_nil] at h
    subst h
    simp [insertLe]
  | y :: ys, c, h, hx => by
    rw [insertLe]
    split
    · exact List.Sublist.cons₂ x h
    · rename_i hxy
      cases h with
      | cons a h2 => exact List.Sublist.cons y (cons_sublist_insertLe le x ys _ h2 hx)
      | cons₂ a h2 => exact absurd (hx y (List.mem_cons_self y _)) hxy

/-- Stability of the sort: a `le`-ordered subsequence of the input is
still a subsequence of the output. -/
theorem sublist_isort {α : Type} (le : α → α → Bool) :
    ∀ (l c : List α), List.Sublist c l → c.Pairwise (fun a b => le a b = true) →
      List.Sublist c (isort le l)
  | [], c, h, _ => by
    rw [List.sublist_nil] at h
    subst h
    exact List.nil_sublist _
  | x :: xs, c, h, hp => by
    rw [isort]
    cases h with
    | cons a h2 => exact (sublist_isort le xs c h2 hp).trans (sublist_insertLe le x _)
    | cons₂ a h2 =>
      rcases List.pairwise_cons.mp hp with ⟨h1, hrest⟩
      exact cons_sublist_insertLe le x (isort le xs) _ (sublist_isort le xs _ h2 hrest) h1

theorem pairwise_insertLe {α : Type} (le : α → α → Bool)
    (htot : ∀ a b, le a b = true ∨ le b a = true)
    (htr : ∀ a b c, le a b = true → le b c = true → le a c = true) (x : α) :
    ∀ l : List α, l.Pairwise (fun a b => le a b = true) →
      (insertLe le x l).Pairwise (fun a b => le a b = true)
  | [], _ => by simp [insertLe]
  | y :: ys, hp => by
    rw [insertLe]
    rcases List.pairwise_cons.mp hp with ⟨hy, hys⟩
    split
    · rename_i hxy
      refine List.pairwise_cons.mpr ⟨?_, hp⟩
      intro b hb
      rcases List.mem_cons.mp hb with rfl | hb2
      · exact hxy
      · exact htr x y b hxy (hy b hb2)
    · rename_i hxy
      refine List.pairwise_cons.mpr ⟨?_, pairwise_insertLe le htot htr x ys hys⟩
      intro b hb
      rcases (mem_insertLe le x b ys).mp hb with rfl | hb2
      · rcases htot b y with h | h
        · exact absurd h hxy
        · exact h
      · exact hy b hb2

theorem pairwise_isort {α : Type} (le : α → α → Bool)
    (htot : ∀ a b, le a b = true ∨ le b a = true)
    (htr : ∀ a b c, le a b = true → le b c = true → le a c = true) :
    ∀ l : List α, (isort le l).Pairwise (fun a b => le a b = true)
  | [] => List.Pairwise.nil
  | x :: xs => by
    rw [isort]
    exact pairwise_insertLe le htot htr x _ (pairwise_isort le htot htr xs)

/-! ### City summary (lines 89–94) and claim C5 -/

/-- One row of the city summary. -/
structure CityRow where
  city : String
  total_amount : ℚ
  txns : Nat
  high_txns : Nat
  night_txns : Nat
deriving DecidableEq, Repr

/-- Lexicographic strict order on character lists by code point (the
order pandas uses to sort string group keys). -/
def charsLt : List Char → List Char → Bool
  | [], [] => false
  | [], _ :: _ => true
  | _ :: _, [] => false
  | c :: cs, d :: ds =>
    if c.toNat < d.toNat then true
    else if d.toNat < c.toNat then false
    else charsLt cs ds

/-- Non-strict lexicographic string comparison. -/
def strLe (a b : String) : Bool := !(charsLt b.data a.data)

/-- Distinct cities in ascending name order: `groupby("city")` sorts its
group keys ascending. -/
def cities (df : List Txn) : List String :=
  isort strLe (dedupFirst (df.map (·.city)))

/-- Aggregation of one city group (sum, count, and counts of the two
boolean flags, which pandas sums as 0/1). -/
def cityRow (df : List Txn) (c : String) : CityRow :=
  let sel := df.filter (fun t => t.city == c)
  { city := c, total_amount := (sel.map (·.amount)).sum, txns := sel.length,
    high_txns := (sel.filter is_high).length,
    night_txns := (sel.filter is_night).length }

/-- The city summary before sorting: one row per group key, in group-key
order (the "original group order"). -/
def cityPerfUnsorted (df : List Txn) : List CityRow :=
  (cities df).map (cityRow df)

/-- Comparison used by `sort_values("total_amount")`. -/
def cityLe (a b : CityRow) : Bool := decide (a.total_amount ≤ b.total_amount)

/-- Embedding of line 89–94's
`groupby("city").agg(...).sort_values("total_amount", ascending=False)`:
ascending stable argsort by total amount, then reversal of the order. -/
def cityPerf (df : List Txn) : List CityRow :=
  (isort cityLe (cityPerfUnsorted df)).reverse

/-- The tie-breaking property exactly as the claim words it: any two rows
with equal totals appear in `cityPerf` in their original group order. -/
def cityTiesStableClaim (df : List Txn) : Prop :=
  ∀ r1 r2 : CityRow, List.Sublist [r1, r2] (cityPerfUnsorted df) →
    r1.total_amount = r2.total_amount → List.Sublist [r1, r2] (cityPerf df)

/-- First transaction of the tied-cities example. -/
def txnAgra : Txn :=
  { account_id := 1, amount := 50, txn_type := "upi", description := "a",
    city := "Agra", txn_time := ⟨2024, 1, 5, 10, 0⟩ }

/-- Second transaction of the tied-cities example. -/
def txnBhopal : Txn :=
  { account_id := 2, amount := 50, txn_type := "upi", description := "b",
    city := "Bhopal", txn_time := ⟨2024, 1, 6, 11, 0⟩ }

/-- A two-city input whose city totals tie. -/
def exdfTiedCities : List Txn := [txnAgra, txnBhopal]

/-- The "Agra" summary row of the tied-cities example. -/
def rowAgra : CityRow :=
  { city := "Agra", total_amount := 50, txns := 1, high_txns := 0, night_txns := 0 }

/-- The "Bhopal" summary row of the tied-cities example. -/
def rowBhopal : CityRow :=
  { city := "Bhopal", total_amount := 50, txns := 1, high_txns := 0, night_txns := 0 }

theorem cityPerfUnsorted_exdf :
    cityPerfUnsorted exdfTiedCities = [rowAgra, rowBhopal] := by
  have hc : cities exdfTiedCities = ["Agra", "Bhopal"] := by decide
  have hhA : is_high txnAgra = false := by
    rw [is_high]
    exact decide_eq_false (by norm_num [txnAgra])
  have hhB : is_high txnBhopal = false := by
    rw [is_high]
    exact decide_eq_false (by norm_num [txnBhopal])
  have hnA : is_night txnAgra = false := by decide
  have hnB : is_night txnBhopal = false := by decide
  have e1 : txnAgra.city = "Agra" := rfl
  have e2 : txnBhopal.city = "Bhopal" := rfl
  have e3 : txnAgra.amount = 50 := rfl
  have e4 : txnBhopal.amount = 50 := rfl
  rw [cityPerfUnsorted, hc]
  simp [cityRow, exdfTiedCities, rowAgra, rowBhopal, hhA, hhB, hnA, hnB,
    e1, e2, e3, e4]

theorem cityPerf_exdf : cityPerf exdfTiedCities = [rowBhopal, rowAgra] := by
  have hle : cityLe rowAgra rowBhopal = true := by
    simp [cityLe, rowAgra, rowBhopal]
  rw [cityPerf, cityPerfUnsorted_exdf]
  simp [isort, insertLe, hle]

/-- C5 counterexample: on a two-city input with tied totals the summary
comes out in reverse group order ("Bhopal" before "Agra"), because pandas
reverses an ascending argsort to sort descending; the claimed stable
original order fails. -/
theorem city_perf_stable_ties_cex : ¬ cityTiesStableClaim exdfTiedCities := by
  intro h
  have h2 := h rowAgra rowBhopal
    (by rw [cityPerfUnsorted_exdf]) rfl
  rw [cityPerf_exdf] at h2
  exact absurd h2 (by decide)

/-- C5 (amended): the city summary is ordered by total amount descending,
and any two cities with equal total amount appear in reverse of their
original group order (pandas reverses an ascending stable argsort to sort
descending). -/
theorem city_perf_sorted_desc (df : List Txn) :
    (cityPerf df).Pairwise (fun a b => b.total_amount ≤ a.total_amount)
    ∧ (∀ r1 r2 : CityRow, List.Sublist [r1, r2] (cityPerfUnsorted df) →
        r1.total_amount = r2.total_amount → List.Sublist [r2, r1] (cityPerf df)) := by
  constructor
  · rw [cityPerf, List.pairwise_reverse]
    have h := pairwise_isort cityLe
      (fun a b => by
        rcases le_total a.total_amount b.total_amount with h | h
        · exact Or.inl (by simpa [cityLe] using h)
        · exact Or.inr (by simpa [cityLe] using h))
      (fun a b c hab hbc => by
        simp only [cityLe, decide_eq_true_eq] at hab hbc ⊢
        exact le_trans hab hbc)
      (cityPerfUnsorted df)
    exact h.imp (fun hab => by simpa [cityLe] using hab)
  · intro r1 r2 hsub heq
    have hpair : ([r1, r2] : List CityRow).Pairwise (fun a b => cityLe a b = true) := by
      simp [List.pairwise_cons, cityLe, heq]
    have h2 : List.Sublist [r1, r2] (isort cityLe (cityPerfUnsorted df)) :=
      sublist_isort cityLe _ _ hsub hpair
    have h3 := h2.reverse
    simpa using h3

/-- Witness for C5's amended theorem on the concrete tied-cities input. -/
theorem city_perf_sorted_desc_witness :
    List.Sublist [rowBhopal, rowAgra] (cityPerf exdfTiedCities) :=
  (city_perf_sorted_desc exdfTiedCities).2 rowAgra rowBhopal
    (by rw [cityPerfUnsorted_exdf]) rfl

/-! ### Calendar months and the cohort analysis (lines 121–134) -/

/-- Month key `year*12 + month`: strictly monotone in the calendar order
of `(year, month)` pairs when `month ∈ [1, 12]`. -/
def monthKey (ym : Nat × Nat) : Nat := ym.1 * 12 + ym.2

/-- Calendar month of a timestamp (`to_period("M")`). -/
def monthOf (ts : Timestamp) : Nat × Nat := (ts.year, ts.month)

/-- The month label string `"YYYY-MM"` produced by `astype(str)` on a
month period. -/
def formatMonth (ym : Nat × Nat) : String :=
  toString ym.1 ++ "-" ++ (if ym.2 < 10 then "0" ++ toString ym.2 else toString ym.2)

/-- Rows of one account (`groupby("account_id")` group). -/
def rowsOf (df : List Txn) (a : Int) : List Txn :=
  df.filter (fun t => t.account_id == a)

/-- Months of one account's transactions. -/
def monthsOf (df : List Txn) (a : Int) : List (Nat × Nat) :=
  (rowsOf df a).map (fun t => monthOf t.txn_time)

/-- Minimum of a list of months in `monthKey` order.  The script takes the
lexicographic minimum of the `"YYYY-MM"` strings, which for four-digit
years and months `1..12` is exactly the `monthKey` order. -/
def minMonth : List (Nat × Nat) → Nat × Nat
  | [] => (0, 0)
  | [m] => m
  | m :: n :: rest =>
    if monthKey m ≤ monthKey (minMonth (n :: rest)) then m else minMonth (n :: rest)

theorem minMonth_mem : ∀ l : List (Nat × Nat), l ≠ [] → minMonth l ∈ l
  | [], h => absurd rfl h
  | [m], _ => by simp [minMonth]
  | m :: n :: rest, _ => by
    rw [minMonth]
    split
    · exact List.mem_cons_self _ _
    · exact List.mem_cons_of_mem _ (minMonth_mem (n :: rest) (by simp))

theorem minMonth_le : ∀ (l : List (Nat × Nat)) (m : Nat × Nat), m ∈ l →
    monthKey (minMonth l) ≤ monthKey m
  | [], _, h => absurd h (List.not_mem_nil _)
  | [p], m, h => by
    rcases List.mem_cons.mp h with rfl | h2
    · exact le_refl _
    · exact absurd h2 (List.not_mem_nil _)
  | p :: q :: rest, m, h => by
    rw [minMonth]
    rcases List.mem_cons.mp h with rfl | h2
    · split
      · exact le_refl _
      · rename_i hp
        exact le_of_lt (lt_of_not_le hp)
    · have hrec := minMonth_le (q :: rest) m h2
      split
      · rename_i hp
        exact le_trans hp hrec
      · exact hrec

/-- Cohort (first) month of an account: the per-account minimum of the
month labels (line 125). -/
def firstMonth (df : List Txn) (a : Int) : Nat × Nat := minMonth (monthsOf df a)

/-- Cohort index of a row (line 129):
`(Period(row month).year − Period(first month).year) * 12 +
 (Period(row month).month − Period(first month).month)`. -/
def cohortIndex (df : List Txn) (t : Txn) : Int :=
  ((t.txn_time.year : Int) - ((firstMonth df t.account_id).1 : Int)) * 12
    + ((t.txn_time.month : Int) - ((firstMonth df t.account_id).2 : Int))

/-! ### Claim C2 (cohort index) -/

/-- C2: for every row of the table, the cohort index is the month
difference `(year diff)*12 + (month diff)` between the row's month and the
account's cohort month, and it is never negative. -/
theorem cohortIndex_nonneg (df : List Txn) (t : Txn) (ht : t ∈ df) :
    cohortIndex df t
      = ((t.txn_time.year : Int) - ((firstMonth df t.account_id).1 : Int)) * 12
        + ((t.txn_time.month : Int) - ((firstMonth df t.account_id).2 : Int))
    ∧ 0 ≤ cohortIndex df t := by
  refine ⟨rfl, ?_⟩
  have hmem : monthOf t.txn_time ∈ monthsOf df t.account_id := by
    apply List.mem_map_of_mem
    exact List.mem_filter.mpr ⟨ht, by simp⟩
  have hle := minMonth_le _ _ hmem
  rw [cohortIndex, firstMonth]
  rw [monthKey, monthKey, monthOf] at hle
  omega

/-- The claim's January transaction for account 1. -/
def txnJan : Txn :=
  { account_id := 1, amount := 100, txn_type := "upi", description := "j",
    city := "Mumbai", txn_time := ⟨2024, 1, 5, 12, 0⟩ }

/-- The claim's February transaction for account 1. -/
def txnFeb : Txn :=
  { account_id := 1, amount := 300, txn_type := "upi", description := "f",
    city := "Mumbai", txn_time := ⟨2024, 2, 10, 12, 0⟩ }

/-- The claim's two-transaction example table. -/
def exC2 : List Txn := [txnJan, txnFeb]

/-- Witness for C2: in the claim's example the cohort month is `"2024-01"`
and the February row's cohort index is 1. -/
theorem cohortIndex_nonneg_witness :
    formatMonth (firstMonth exC2 1) = "2024-01"
    ∧ cohortIndex exC2 txnFeb = 1
    ∧ 0 ≤ cohortIndex exC2 txnFeb :=
  ⟨by decide, by decide, (cohortIndex_nonneg exC2 txnFeb (by decide)).2⟩

/-! ### Claim C3 (cohort retention at offset 0) -/

/-- Distinct account ids in ascending order (`groupby("account_id")`
sorts its group keys). -/
def accounts (df : List Txn) : List Int :=
  isort (fun a b => decide (a ≤ b)) (dedupFirst (df.map (·.account_id)))

/-- Accounts whose cohort month is `c`. -/
def cohortAccounts (df : List Txn) (c : Nat × Nat) : List Int :=
  (accounts df).filter (fun a => firstMonth df a == c)

/-- Embedding of line 132, `cohort_base`: the number of distinct accounts
whose first month is `c`. -/
def cohortBase (df : List Txn) (c : Nat × Nat) : Nat := (cohortAccounts df c).length

/-- Embedding of line 133, `cohort_counts` at `(c, k)`: the number of
distinct accounts of cohort `c` with some transaction at cohort index `k`
(0 for combinations absent from the data, matching `unstack(fill_value=0)`). -/
def cohortActive (df : List Txn) (c : Nat × Nat) (k : Int) : Nat :=
  ((cohortAccounts df c).filter
    (fun a => (rowsOf df a).any (fun t => cohortIndex df t == k))).length

/-- Round-half-to-even on `ℚ` (the rounding rule of numpy/pandas
`round`). -/
def roundHalfEven (q : ℚ) : Int :=
  if q - ⌊q⌋ < 1 / 2 then ⌊q⌋
  else if 1 / 2 < q - ⌊q⌋ then ⌊q⌋ + 1
  else if ⌊q⌋ % 2 = 0 then ⌊q⌋ else ⌊q⌋ + 1

/-- Rounding to 3 decimal places (`round(3)`). -/
def round3 (q : ℚ) : ℚ := (roundHalfEven (q * 1000) : ℚ) / 1000

/-- Embedding of line 134: retention cell `(c, k)` is the distinct active
count over the cohort's size, rounded to 3 decimals. -/
def retentionCell (df : List Txn) (c : Nat × Nat) (k : Int) : ℚ :=
  round3 ((cohortActive df c k : ℚ) / (cohortBase df c : ℚ))

theorem round3_one : round3 1 = 1 := by
  rw [round3, roundHalfEven]
  norm_num

/-- Every account of the table has at least one row, and its cohort month
is attained by one of its rows. -/
theorem firstMonth_attained (df : List Txn) (a : Int) (ha : a ∈ accounts df) :
    ∃ t ∈ rowsOf df a, monthOf t.txn_time = firstMonth df a := by
  have h1 : a ∈ dedupFirst (df.map (·.account_id)) := (mem_isort _ a _).mp ha
  have h2 : a ∈ df.map (·.account_id) := mem_of_mem_dedupFirst h1
  rcases List.mem_map.mp h2 with ⟨t0, ht0, hta0⟩
  have hrow : t0 ∈ rowsOf df a := List.mem_filter.mpr ⟨ht0, by simp [hta0]⟩
  have hne : monthsOf df a ≠ [] :=
    List.ne_nil_of_mem (List.mem_map_of_mem (fun t => monthOf t.txn_time) hrow)
  have hmm : minMonth (monthsOf df a) ∈ monthsOf df a := minMonth_mem _ hne
  rcases List.mem_map.mp hmm with ⟨t, htr, hteq⟩
  exact ⟨t, htr, hteq⟩

/-- C3: every retention cell is the distinct active count divided by the
cohort size, rounded to 3 decimals, and for every cohort month present in
the data the cell at cohort index 0 equals 1. -/
theorem retention_offset0_one (df : List Txn) (c : Nat × Nat)
    (hc : ∃ a ∈ accounts df, firstMonth df a = c) :
    retentionCell df c 0 = 1
    ∧ ∀ k : Int, retentionCell df c k
        = round3 ((cohortActive df c k : ℚ) / (cohortBase df c : ℚ)) := by
  refine ⟨?_, fun k => rfl⟩
  have hfull : (cohortAccounts df c).filter
      (fun a => (rowsOf df a).any (fun t => cohortIndex df t == 0))
      = cohortAccounts df c := by
    apply List.filter_eq_self.mpr
    intro a ha
    have ha2 : a ∈ accounts df := (List.mem_filter.mp ha).1
    rcases firstMonth_attained df a ha2 with ⟨t, htr, hteq⟩
    have hta : t.account_id = a := by
      have h3 := (List.mem_filter.mp htr).2
      simpa using h3
    apply List.any_eq_true.mpr
    refine ⟨t, htr, ?_⟩
    have hz : cohortIndex df t = 0 := by
      rw [cohortIndex, hta]
      have h1 : t.txn_time.year = (firstMonth df a).1 := by rw [← hteq]; rfl
      have h2 : t.txn_time.month = (firstMonth df a).2 := by rw [← hteq]; rfl
      rw [h1, h2]
      ring
    simp [hz]
  have hbase : cohortBase df c ≠ 0 := by
    rcases hc with ⟨a0, ha0, hf0⟩
    have hmem : a0 ∈ cohortAccounts df c := List.mem_filter.mpr ⟨ha0, by simp [hf0]⟩
    rw [cohortBase, Ne, List.length_eq_zero]
    exact List.ne_nil_of_mem hmem
  rw [retentionCell, cohortActive, hfull, cohortBase]
  rw [cohortBase] at hbase
  rw [div_self (by exact_mod_cast hbase)]
  exact round3_one

/-- Witness for C3 on the claim C2 example table: account 1's cohort is
`(2024, 1)` and the cell at offset 0 is 1. -/
theorem retention_offset0_one_witness : retentionCell exC2 (2024, 1) 0 = 1 :=
  (retention_offset0_one exC2 (2024, 1) ⟨1, by decide, by decide⟩).1

/-! ### Claim C10 (monthly summary covers every month in range)

The script computes the monthly table with `df.resample("ME").agg(...)`
(lines 80–86) over the datetime index: resampling produces one bin for
every month-end period from the index minimum to the index maximum, gaps
included; empty bins aggregate to sum 0 and count 0. -/

/-- Month key of a row. -/
def monthKeyOf (t : Txn) : Nat := monthKey (monthOf t.txn_time)

/-- Minimum of a list of naturals (0 for the empty list). -/
def minN : List Nat → Nat
  | [] => 0
  | [x] => x
  | x :: y :: rest => min x (minN (y :: rest))

/-- Maximum of a list of naturals (0 for the empty list). -/
def maxN : List Nat → Nat
  | [] => 0
  | [x] => x
  | x :: y :: rest => max x (maxN (y :: rest))

/-- The closed interval of month keys `[a, b]` as a list. -/
def monthRange (a b : Nat) : List Nat := (List.range (b + 1 - a)).map (a + ·)

/-- One row of the monthly summary. -/
structure MonthRow where
  month : Nat
  total_amount : ℚ
  txns : Nat
  high_txns : Nat
  night_txns : Nat
deriving DecidableEq, Repr

/-- Aggregation of one month bin: sum of amounts, row count, and counts
of the two boolean flags (summed as 0/1 by pandas). -/
def monthlyRow (df : List Txn) (k : Nat) : MonthRow :=
  let sel := df.filter (fun t => monthKeyOf t == k)
  { month := k, total_amount := (sel.map (·.amount)).sum, txns := sel.length,
    high_txns := (sel.filter is_high).length,
    night_txns := (sel.filter is_night).length }

/-- Embedding of lines 80–86: one aggregated row per month bin from the
earliest month of the index to the latest. -/
def monthly (df : List Txn) : List MonthRow :=
  (monthRange (minN (df.map monthKeyOf)) (maxN (df.map monthKeyOf))).map (monthlyRow df)

theorem mem_monthRange {a b k : Nat} : k ∈ monthRange a b ↔ a ≤ k ∧ k ≤ b := by
  rw [monthRange]
  simp only [List.mem_map, List.mem_range]
  constructor
  · rintro ⟨i, hi, rfl⟩
    omega
  · intro h
    exact ⟨k - a, by omega, by omega⟩

theorem nodup_monthRange (a b : Nat) : (monthRange a b).Nodup :=
  (List.nodup_range _).map (fun i j h => by omega)

/-- C10: the monthly summary has exactly one row for every month key in
the closed interval from the earliest to the latest transaction month, no
row outside it, and a month with no transactions appears with total
amount 0 and all three counts 0. -/
theorem monthly_covers_all_months (df : List Txn) (_hne : df ≠ []) :
    (∀ k, minN (df.map monthKeyOf) ≤ k → k ≤ maxN (df.map monthKeyOf) →
      ((monthly df).map (fun r => r.month)).count k = 1)
    ∧ (∀ k, k < minN (df.map monthKeyOf) ∨ maxN (df.map monthKeyOf) < k →
      ((monthly df).map (fun r => r.month)).count k = 0)
    ∧ (∀ r ∈ monthly df, df.filter (fun t => monthKeyOf t == r.month) = [] →
      r.total_amount = 0 ∧ r.txns = 0 ∧ r.high_txns = 0 ∧ r.night_txns = 0) := by
  have hmap : (monthly df).map (fun r => r.month)
      = monthRange (minN (df.map monthKeyOf)) (maxN (df.map monthKeyOf)) := by
    rw [monthly, List.map_map]
    exact List.map_id _
  refine ⟨?_, ?_, ?_⟩
  · intro k h1 h2
    rw [hmap]
    exact List.count_eq_one_of_mem (nodup_monthRange _ _) (mem_monthRange.mpr ⟨h1, h2⟩)
  · intro k hk
    rw [hmap]
    apply List.count_eq_zero.mpr
    intro hmem
    rcases mem_monthRange.mp hmem with ⟨h1, h2⟩
    omega
  · intro r hr hfil
    rcases List.mem_map.mp hr with ⟨k, _hk, rfl⟩
    have hm : (monthlyRow df k).month = k := rfl
    rw [hm] at hfil
    refine ⟨?_, ?_, ?_, ?_⟩ <;> simp [monthlyRow, hfil]

/-- A transaction in March 2024 for the gap example. -/
def txnMar : Txn :=
  { account_id := 2, amount := 40, txn_type := "card", description := "m",
    city := "Pune", txn_time := ⟨2024, 3, 8, 9, 0⟩ }

/-- A two-transaction table with a gap month (February 2024). -/
def exC10 : List Txn := [txnJan, txnMar]

/-- Witness for C10: on the gap example the empty month February 2024
(key `2024*12+2`) gets exactly one row, and its aggregates are all 0. -/
theorem monthly_covers_all_months_witness :
    ((monthly exC10).map (fun r => r.month)).count (2024 * 12 + 2) = 1
    ∧ monthlyRow exC10 (2024 * 12 + 2)
      = { month := 2024 * 12 + 2, total_amount := 0, txns := 0,
          high_txns := 0, night_txns := 0 } :=
  ⟨(monthly_covers_all_months exC10 (by decide)).1 (2024 * 12 + 2)
      (by decide) (by decide), by decide⟩

/-! ### RFM scoring (lines 104–118) and claim C1 -/

/-- Key that orders timestamps lexicographically by
(year, month, day, hour, minute), for in-range field values. -/
def timeKey (ts : Timestamp) : Nat :=
  (((ts.year * 13 + ts.month) * 32 + ts.day) * 24 + ts.hour) * 60 + ts.minute

/-- Latest timestamp of a list in `timeKey` order (`index.max()`). -/
def lastTime : List Timestamp → Timestamp
  | [] => ⟨0, 0, 0, 0, 0⟩
  | [t] => t
  | t :: u :: rest =>
    if timeKey (lastTime (u :: rest)) ≤ timeKey t then t else lastTime (u :: rest)

/-- Day number of a calendar date (days since 1970-01-01, the standard
civil-calendar formula; pandas `.normalize()` drops the time of day, so
only the date fields enter). -/
def daysFromCivil (y m d : Int) : Int :=
  let y2 := if m ≤ 2 then y - 1 else y
  let era := (if 0 ≤ y2 then y2 else y2 - 399) / 400
  let yoe := y2 - era * 400
  let mp := if 2 < m then m - 3 else m + 9
  let doy := (153 * mp + 2) / 5 + d - 1
  let doe := yoe * 365 + yoe / 4 - yoe / 100 + doy
  era * 146097 + doe - 719468

/-- Day number of a timestamp's date. -/
def dayNumber (ts : Timestamp) : Int :=
  daysFromCivil (ts.year : Int) (ts.month : Int) (ts.day : Int)

/-- Embedding of `last_txn` (line 107): the account's latest transaction
time. -/
def lastTxnTime (df : List Txn) (a : Int) : Timestamp :=
  lastTime ((rowsOf df a).map (·.txn_time))

/-- Embedding of line 104, `max_date = df.index.max().normalize()`
(represented by its date's day number). -/
def maxDateNumber (df : List Txn) : Int := dayNumber (lastTime (df.map (·.txn_time)))

/-- Embedding of line 111, `recency_days`: whole days between the
dataset's last date and the account's last date. -/
def recency_days (df : List Txn) (a : Int) : Int :=
  maxDateNumber df - dayNumber (lastTxnTime df a)

/-- Embedding of `frequency` (line 108): the account's transaction count. -/
def frequency (df : List Txn) (a : Int) : Nat := (rowsOf df a).length

/-- Embedding of `monetary` (line 109): the account's total amount. -/
def monetary (df : List Txn) (a : Int) : ℚ := ((rowsOf df a).map (·.amount)).sum

/-- Ascending sort of rationals (quantiles are taken on sorted values). -/
def sortQ (l : List ℚ) : List ℚ := isort (fun a b => decide (a ≤ b)) l

/-- The `k/4` quantile of a list by pandas' default linear interpolation:
with sorted values `s` of length `n` and `h = (k/4)·(n−1)`, the result is
`s[⌊h⌋] + (h − ⌊h⌋) · (s[⌊h⌋+1] − s[⌊h⌋])`.  Here `⌊h⌋ = k(n−1)/4` and
`h − ⌊h⌋ = (k(n−1) mod 4)/4` in integer arithmetic. -/
def quartile (xs : List ℚ) (k : Nat) : ℚ :=
  let s := sortQ xs
  let n := s.length
  let j := k * (n - 1) / 4
  let r : ℚ := ((k * (n - 1)) % 4 : Nat) / 4
  let a := s.getD j 0
  let b := s.getD (j + 1) a
  a + r * (b - a)

/-- The three internal quartile edges of `qcut(_, 4)`. -/
def qcutEdges (xs : List ℚ) : List ℚ := [quartile xs 1, quartile xs 2, quartile xs 3]

/-- Label assigned by `qcut(_, 4, labels=[1,2,3,4])`: bins are the
right-closed intervals between consecutive quantile edges (the lowest
extended to include the minimum), so a value's label is 1 plus the number
of internal edges strictly below it. -/
def qcutLabel (xs : List ℚ) (v : ℚ) : Nat :=
  1 + ((qcutEdges xs).filter (fun e => decide (e < v))).length

/-- Success condition of `qcut(_, 4)`: the five quantile edges are
pairwise distinct (pandas raises `ValueError: Bin edges must be unique`
otherwise). -/
def qcutOk (xs : List ℚ) : Prop :=
  ([quartile xs 0] ++ qcutEdges xs ++ [quartile xs 4]).Nodup

/-- Embedding of `rank(method="first")`: the rank of each entry among all
entries, ties broken by position (earlier entries rank lower). -/
def rankFirst (l : List ℚ) : List ℚ :=
  l.enum.map (fun p => 1 + ((l.enum.filter
    (fun q => decide (q.2 < p.2) || (decide (q.2 = p.2) && decide (q.1 < p.1)))).length : ℚ))

/-- Position of an account in the sorted distinct account list (row order
of the `rfm` table). -/
def accountPos (df : List Txn) (a : Int) : Nat := (accounts df).indexOf a

/-- The negated recencies, in account order (line 114 bins
`-rfm["recency_days"]`, so bin 4 is the most recent quartile). -/
def negRecencies (df : List Txn) : List ℚ :=
  (accounts df).map (fun a => -((recency_days df a : Int) : ℚ))

/-- The first-method ranks of each account's frequency (line 115). -/
def freqRanks (df : List Txn) : List ℚ :=
  rankFirst ((accounts df).map (fun a => (frequency df a : ℚ)))

/-- The first-method ranks of each account's monetary total (line 116). -/
def monRanks (df : List Txn) : List ℚ :=
  rankFirst ((accounts df).map (monetary df))

/-- Recency quartile label of an account (line 114). -/
def R_quart (df : List Txn) (a : Int) : Nat :=
  qcutLabel (negRecencies df) ((negRecencies df).getD (accountPos df a) 0)

/-- Frequency quartile label of an account (line 115). -/
def F_quart (df : List Txn) (a : Int) : Nat :=
  qcutLabel (freqRanks df) ((freqRanks df).getD (accountPos df a) 0)

/-- Monetary quartile label of an account (line 116). -/
def M_quart (df : List Txn) (a : Int) : Nat :=
  qcutLabel (monRanks df) ((monRanks df).getD (accountPos df a) 0)

/-- Embedding of line 118: the combined score is the sum of the three
quartile labels. -/
def RFM_score (df : List Txn) (a : Int) : Nat :=
  R_quart df a + F_quart df a + M_quart df a

theorem qcutLabel_bounds (xs : List ℚ) (v : ℚ) :
    1 ≤ qcutLabel xs v ∧ qcutLabel xs v ≤ 4 := by
  constructor
  · exact Nat.le_add_right 1 _
  · have h := List.length_filter_le (fun e => decide (e < v)) (qcutEdges xs)
    have h3 : (qcutEdges xs).length = 3 := rfl
    rw [qcutLabel]
    omega

/-- C1: for every distinct account, when the three quartile binnings
succeed the combined RFM score — the sum of the three quartile labels,
each in `{1,2,3,4}` — lies between 3 and 12 inclusive. -/
theorem rfm_score_bounds (df : List Txn) (a : Int) (_ha : a ∈ accounts df)
    (_hok : qcutOk (negRecencies df) ∧ qcutOk (freqRanks df) ∧ qcutOk (monRanks df)) :
    3 ≤ RFM_score df a ∧ RFM_score df a ≤ 12 := by
  have h1 := qcutLabel_bounds (negRecencies df) ((negRecencies df).getD (accountPos df a) 0)
  have h2 := qcutLabel_bounds (freqRanks df) ((freqRanks df).getD (accountPos df a) 0)
  have h3 := qcutLabel_bounds (monRanks df) ((monRanks df).getD (accountPos df a) 0)
  rw [RFM_score, R_quart, F_quart, M_quart]
  omega

/-- Account 1's transaction of the RFM example. -/
def txnR1 : Txn :=
  { account_id := 1, amount := 10, txn_type := "upi", description := "r1",
    city := "Mumbai", txn_time := ⟨2024, 1, 1, 12, 0⟩ }

/-- Account 2's transaction of the RFM example. -/
def txnR2 : Txn :=
  { account_id := 2, amount := 20, txn_type := "upi", description := "r2",
    city := "Mumbai", txn_time := ⟨2024, 1, 4, 12, 0⟩ }

/-- Account 3's transaction of the RFM example. -/
def txnR3 : Txn :=
  { account_id := 3, amount := 30, txn_type := "upi", description := "r3",
    city := "Mumbai", txn_time := ⟨2024, 1, 7, 12, 0⟩ }

/-- Account 4's transaction of the RFM example. -/
def txnR4 : Txn :=
  { account_id := 4, amount := 40, txn_type := "upi", description := "r4",
    city := "Mumbai", txn_time := ⟨2024, 1, 9, 12, 0⟩ }

/-- A four-account example table for the RFM witness. -/
def exRFM : List Txn := [txnR1, txnR2, txnR3, txnR4]

theorem accounts_exRFM : accounts exRFM = [1, 2, 3, 4] := by decide

theorem negRecencies_exRFM : negRecencies exRFM = [-8, -5, -2, 0] := by
  have h1 : recency_days exRFM 1 = 8 := by decide
  have h2 : recency_days exRFM 2 = 5 := by decide
  have h3 : recency_days exRFM 3 = 2 := by decide
  have h4 : recency_days exRFM 4 = 0 := by decide
  rw [negRecencies, accounts_exRFM]
  simp only [List.map]
  rw [h1, h2, h3, h4]
  norm_num

theorem freqRanks_exRFM : freqRanks exRFM = [1, 2, 3, 4] := by
  have f1 : frequency exRFM 1 = 1 := by decide
  have f2 : frequency exRFM 2 = 1 := by decide
  have f3 : frequency exRFM 3 = 1 := by decide
  have f4 : frequency exRFM 4 = 1 := by decide
  rw [freqRanks, accounts_exRFM]
  simp only [List.map]
  rw [f1, f2, f3, f4]
  norm_num [rankFirst, List.enum, List.enumFrom]

theorem monRanks_exRFM : monRanks exRFM = [1, 2, 3, 4] := by
  have hr1 : rowsOf exRFM 1 = [txnR1] := by decide
  have hr2 : rowsOf exRFM 2 = [txnR2] := by decide
  have hr3 : rowsOf exRFM 3 = [txnR3] := by decide
  have hr4 : rowsOf exRFM 4 = [txnR4] := by decide
  have m1 : monetary exRFM 1 = 10 := by
    rw [monetary, hr1]
    simp [txnR1]
  have m2 : monetary exRFM 2 = 20 := by
    rw [monetary, hr2]
    simp [txnR2]
  have m3 : monetary exRFM 3 = 30 := by
    rw [monetary, hr3]
    simp [txnR3]
  have m4 : monetary exRFM 4 = 40 := by
    rw [monetary, hr4]
    simp [txnR4]
  rw [monRanks, accounts_exRFM]
  simp only [List.map]
  rw [m1, m2, m3, m4]
  norm_num [rankFirst, List.enum, List.enumFrom]

theorem qcutOk_negRecencies_exRFM : qcutOk (negRecencies exRFM) := by
  rw [qcutOk, negRecencies_exRFM]
  norm_num [qcutEdges, quartile, sortQ, isort, insertLe, List.getD]

theorem qcutOk_freqRanks_exRFM : qcutOk (freqRanks exRFM) := by
  rw [qcutOk, freqRanks_exRFM]
  norm_num [qcutEdges, quartile, sortQ, isort, insertLe, List.getD]

theorem qcutOk_monRanks_exRFM : qcutOk (monRanks exRFM) := by
  rw [qcutOk, monRanks_exRFM]
  norm_num [qcutEdges, quartile, sortQ, isort, insertLe, List.getD]

/-- Witness for C1 on the four-account example: account 1 is in the
table, all three binnings succeed, and the combined score is in `[3, 12]`. -/
theorem rfm_score_bounds_witness :
    3 ≤ RFM_score exRFM 1 ∧ RFM_score exRFM 1 ≤ 12 :=
  rfm_score_bounds exRFM 1 (by decide)
    ⟨qcutOk_negRecencies_exRFM, qcutOk_freqRanks_exRFM, qcutOk_monRanks_exRFM⟩

end NeoPay
